import Mathlib

/-!
# Verification of the makebo price-ranking app's batch synchronization engine

A shallow embedding, in Lean 4, of the JavaScript source of the repository
(src/src/App.js and the two unnamed variants).  JavaScript objects used as
ordered string-keyed maps (`Object.entries` / `Object.fromEntries`) are
modelled as lists of entries in iteration order; `localStorage` is modelled
as an explicit store value threaded through the cache functions; `Date.now()`
is an explicit `Int` parameter (epoch milliseconds); `fetch` responses are
explicit oracle parameters; `new Date(t).toLocaleString('ja-JP')` is an
abstract formatting parameter `fmt : Int → String`; JSON (de)serialisation of
cache entries is assumed exact.  JavaScript numbers occurring as prices are
modelled as `Int`.
-/

namespace MakeboApp

/-- Item identifiers: string keys of the catalog object. -/
abbrev ItemId := String

/-- `CACHE_DURATION = 5 * 60 * 1000` ms (App.js line 28): the cache TTL. -/
def CACHE_DURATION : Int := 5 * 60 * 1000

/-- `BATCH_SIZE = 2700` (App.js line 24): outer batch window size. -/
def BATCH_SIZE : Nat := 2700

/-- `PARALLEL_BATCH_SIZE = 8` (App.js line 26): dispatch-group size /
concurrency budget. -/
def PARALLEL_BATCH_SIZE : Nat := 8

/-- One market listing from the Universalis API: only `pricePerUnit` is read. -/
structure Listing where
  pricePerUnit : Int
deriving DecidableEq, Repr

/-- The cached payload: the fields of a resolved price record minus the id
(what `cachePriceData` serialises as `price`). -/
structure CachePayload where
  name : String
  price : Int
  averagePrice : Int
  lastUploadTime : String
  listingsCount : Nat
deriving DecidableEq, Repr

/-- A resolved price record as built by `fetchSinglePrice` / `fetchPricesBulk`:
`{id, name, price, averagePrice, lastUploadTime, listingsCount}`. -/
structure PriceRecord where
  id : ItemId
  name : String
  price : Int
  averagePrice : Int
  lastUploadTime : String
  listingsCount : Nat
deriving DecidableEq, Repr

/-- `{ id, ...cachedPrice }`: re-attach an id to a cached payload (the spread
in the cache-hit branch of `fetchSinglePrice`, App.js line 93). -/
def PriceRecord.ofPayload (id : ItemId) (p : CachePayload) : PriceRecord :=
  ⟨id, p.name, p.price, p.averagePrice, p.lastUploadTime, p.listingsCount⟩

/-- The Cache Store (`localStorage`).  The source keys entries by the
namespaced string `price_` ++ id; since that keying is injective in `id`, the
store is modelled as indexed by the id directly.  An entry is the parsed JSON
`{price, timestamp}` pair. -/
def Store := ItemId → Option (CachePayload × Int)

/-- A store with no entries. -/
def emptyStore : Store := fun _ => none

/-- `localStorage.setItem` for one key. -/
def storeSet (s : Store) (id : ItemId) (e : CachePayload × Int) : Store :=
  fun j => if j = id then some e else s j

/-- `localStorage.removeItem` for one key. -/
def storeRemove (s : Store) (id : ItemId) : Store :=
  fun j => if j = id then none else s j

/-- `getPriceFromCache` (App.js lines 55-67): read the cache entry for `id`;
a non-expired entry (`Date.now() - timestamp < CACHE_DURATION`) is returned,
an expired one is removed and `null` returned.  Returns the read value and
the store after the read. -/
def getPriceFromCache (now : Int) (s : Store) (id : ItemId) :
    Option CachePayload × Store :=
  match s id with
  | some (price, timestamp) =>
      if now - timestamp < CACHE_DURATION then (some price, s)
      else (none, storeRemove s id)
  | none => (none, s)

/-- `cachePriceData` (App.js lines 73-81): store the payload together with the
current timestamp. -/
def cachePriceData (now : Int) (s : Store) (id : ItemId) (price : CachePayload) :
    Store :=
  storeSet s id (price, now)

/-! ## Batch partitioner -/

/-- `getBatchItems` (App.js lines 42-49): `entries.slice(start, start + size)`
with `start = batchNumber * size`.  The source fixes `size` to the constant
`BATCH_SIZE` (2700 in App.js, 100 and 3900 in the two variants); the window
size is a parameter here so all variants are instances. -/
def getBatchItems {α : Type} (batchSize : Nat) (items : List α)
    (batchNumber : Nat) : List α :=
  (items.drop (batchNumber * batchSize)).take batchSize

/-- `Math.ceil(n / w)` for natural `n`, `w` (the `totalBatches` computation,
App.js line 189). -/
def jsCeilDiv (n w : Nat) : Nat := (n + w - 1) / w

/-- All windows of the catalog: `getBatchItems` at indices
`0 .. ceil(|items| / w) - 1`. -/
def windows {α : Type} (w : Nat) (items : List α) : List (List α) :=
  (List.range (jsCeilDiv items.length w)).map (getBatchItems w items)

theorem jsCeilDiv_zero (w : Nat) (hw : 0 < w) : jsCeilDiv 0 w = 0 := by
  unfold jsCeilDiv
  exact Nat.div_eq_of_lt (by omega)

theorem jsCeilDiv_pos_step (n w : Nat) (hw : 0 < w) (hn : 0 < n) :
    jsCeilDiv n w = jsCeilDiv (n - w) w + 1 := by
  unfold jsCeilDiv
  rcases Nat.le_total n w with h | h
  · have h1 : n + w - 1 = (n - 1) + w := by omega
    have h2 : n - w = 0 := by omega
    rw [h1, Nat.add_div_right _ hw, h2]
    have h3 : (n - 1) / w = 0 := Nat.div_eq_of_lt (by omega)
    have h0 : (0 + w - 1) / w = 0 := Nat.div_eq_of_lt (by omega)
    omega
  · have h1 : n + w - 1 = ((n - w) + w - 1) + w := by omega
    rw [h1, Nat.add_div_right _ hw]

/-- The catalog length is at most `ceil(length / w) * w`. -/
theorem length_le_jsCeilDiv_mul (n w : Nat) (hw : 0 < w) :
    n ≤ jsCeilDiv n w * w := by
  unfold jsCeilDiv
  have hdm := Nat.div_add_mod (n + w - 1) w
  have hmod : (n + w - 1) % w < w := Nat.mod_lt _ hw
  have hgoal : w * ((n + w - 1) / w) = (n + w - 1) / w * w := Nat.mul_comm _ _
  omega

theorem windows_join_aux {α : Type} (w : Nat) (hw : 0 < w) :
    ∀ (fuel : Nat) (items : List α), items.length ≤ fuel →
      (windows w items).flatten = items := by
  intro fuel
  induction fuel with
  | zero =>
      intro items h
      have : items = [] := List.length_eq_zero.mp (Nat.le_zero.mp h)
      subst this
      simp [windows, jsCeilDiv_zero w hw]
  | succ fuel ih =>
      intro items h
      cases items with
      | nil => simp [windows, jsCeilDiv_zero w hw]
      | cons x xs =>
        have hstep : jsCeilDiv (x :: xs).length w
            = jsCeilDiv ((x :: xs).length - w) w + 1 :=
          jsCeilDiv_pos_step _ w hw (by simp)
        have hdroplen : ((x :: xs).drop w).length = (x :: xs).length - w := by
          simp [List.length_drop]
        have hdrop_le : ((x :: xs).drop w).length ≤ fuel := by
          rw [hdroplen]
          simp only [List.length_cons] at h ⊢
          omega
        have ihd := ih ((x :: xs).drop w) hdrop_le
        unfold windows at ihd ⊢
        rw [hstep, ← hdroplen, List.range_succ_eq_map, List.map_cons, List.flatten_cons,
          List.map_map]
        have hshift : ∀ i : Nat,
            getBatchItems w (x :: xs) (i + 1)
              = getBatchItems w ((x :: xs).drop w) i := by
          intro i
          unfold getBatchItems
          rw [List.drop_drop]
          have hidx : w + i * w = (i + 1) * w := by ring
          rw [hidx]
        have hmapeq : (List.range (jsCeilDiv ((x :: xs).drop w).length w)).map
              (getBatchItems w (x :: xs) ∘ Nat.succ)
            = (List.range (jsCeilDiv ((x :: xs).drop w).length w)).map
              (getBatchItems w ((x :: xs).drop w)) := by
          apply List.map_congr_left
          intro i _
          simpa using hshift i
        rw [hmapeq, ihd]
        show getBatchItems w (x :: xs) 0 ++ (x :: xs).drop w = x :: xs
        unfold getBatchItems
        simp

/-- The windows of a list, joined in index order, give back the list. -/
theorem windows_join {α : Type} (w : Nat) (hw : 0 < w) (items : List α) :
    (windows w items).flatten = items :=
  windows_join_aux w hw items.length items (Nat.le_refl _)

/-- Windows of a duplicate-free list are pairwise disjoint. -/
theorem windows_pairwise_disjoint {α : Type} (w : Nat) (hw : 0 < w)
    (items : List α) (hnd : items.Nodup) :
    (windows w items).Pairwise List.Disjoint := by
  have hjoin : (windows w items).flatten.Nodup := by
    rw [windows_join w hw items]; exact hnd
  exact (List.nodup_flatten.mp hjoin).2

/-- C2: for every catalog `items` and window size `w > 0`, the windows at
indices `0 .. ceil(|items|/w) - 1` concatenate, in order, to exactly the
catalog (their union is the catalog and windowing preserves iteration order);
for a duplicate-free catalog they are pairwise disjoint; and the trailing
window holds exactly the remaining `|items| - (k-1)*w` items — possibly fewer
than `w`, returned as-is, neither padded nor an error. -/
theorem c2_partition_coverage {α : Type} (w : Nat) (hw : 0 < w)
    (items : List α) (hnd : items.Nodup) :
    (windows w items).flatten = items ∧
    (windows w items).Pairwise List.Disjoint ∧
    (getBatchItems w items (jsCeilDiv items.length w - 1)).length
      = items.length - (jsCeilDiv items.length w - 1) * w := by
  refine ⟨windows_join w hw items, windows_pairwise_disjoint w hw items hnd, ?_⟩
  unfold getBatchItems
  rw [List.length_take, List.length_drop]
  have hle : items.length ≤ jsCeilDiv items.length w * w :=
    length_le_jsCeilDiv_mul items.length w hw
  have hsub : (jsCeilDiv items.length w - 1) * w
      = jsCeilDiv items.length w * w - w := by
    rw [Nat.sub_mul, Nat.one_mul]
  apply Nat.min_eq_right
  rw [hsub]
  omega

/-- A concrete payload used by several witnesses. -/
def samplePayload : CachePayload := ⟨"銘", 100, 90, "t0", 2⟩

/-- Witness for C2: catalog of five entries, window size 2 — three windows
rejoin to the catalog. -/
theorem c2_partition_coverage_witness :
    (windows 2 ["a", "b", "c", "d", "e"]).flatten = ["a", "b", "c", "d", "e"] :=
  (c2_partition_coverage 2 (by decide) ["a", "b", "c", "d", "e"] (by decide)).1

/-! ## Cache TTL (C1) -/

/-- C1: a payload written for `id` at time `T` via `cachePriceData` is, on a
read via `getPriceFromCache` at time `Tp`: returned unchanged with the store
unmodified when `Tp - T < CACHE_DURATION`; read as absent, with exactly the
entry for `id` deleted and every other key untouched, when
`Tp - T ≥ CACHE_DURATION`. -/
theorem c1_cache_ttl (s : Store) (id : ItemId) (p : CachePayload) (T Tp : Int) :
    (Tp - T < CACHE_DURATION →
      getPriceFromCache Tp (cachePriceData T s id p) id
        = (some p, cachePriceData T s id p)) ∧
    (CACHE_DURATION ≤ Tp - T →
      (getPriceFromCache Tp (cachePriceData T s id p) id).1 = none ∧
      (getPriceFromCache Tp (cachePriceData T s id p) id).2 id = none ∧
      ∀ j, j ≠ id → (getPriceFromCache Tp (cachePriceData T s id p) id).2 j
        = cachePriceData T s id p j) := by
  have hread : (cachePriceData T s id p) id = some (p, T) := by
    simp [cachePriceData, storeSet]
  constructor
  · intro hvalid
    unfold getPriceFromCache
    rw [hread]
    simp [hvalid]
  · intro hexp
    have hnv : ¬ (Tp - T < CACHE_DURATION) := by omega
    unfold getPriceFromCache
    rw [hread]
    refine ⟨by simp [hnv], by simp [hnv, storeRemove], ?_⟩
    intro j hj
    simp [hnv, storeRemove, hj]

/-- Witness for C1: a write at time 0 read back at 1000 ms (fresh) and at
300000 ms (expired). -/
theorem c1_cache_ttl_witness :
    getPriceFromCache 1000 (cachePriceData 0 emptyStore "5510" samplePayload) "5510"
      = (some samplePayload, cachePriceData 0 emptyStore "5510" samplePayload) ∧
    (getPriceFromCache 300000 (cachePriceData 0 emptyStore "5510" samplePayload)
        "5510").1 = none ∧
    (getPriceFromCache 300000 (cachePriceData 0 emptyStore "5510" samplePayload)
        "5510").2 "5510" = none :=
  ⟨(c1_cache_ttl emptyStore "5510" samplePayload 0 1000).1 (by decide),
   ((c1_cache_ttl emptyStore "5510" samplePayload 0 300000).2 (by decide)).1,
   ((c1_cache_ttl emptyStore "5510" samplePayload 0 300000).2 (by decide)).2.1⟩

/-! ## The price resolver: `fetchSinglePrice` -/

/-- The parsed body of a single-item Universalis response
(`data.listings`, `data.averagePrice`, `data.lastUploadTime`). -/
structure ApiData where
  listings : List Listing
  averagePrice : Int
  lastUploadTime : Int
deriving DecidableEq, Repr

/-- The outcome of one `fetch` of the single-item endpoint: a non-2xx status
(`!response.ok`) or a parsed 2xx body. -/
inductive SingleResp where
  | httpError
  | ok (data : ApiData)
deriving DecidableEq, Repr

/-- `Math.min(...xs)` over a non-empty spread (the empty case never occurs in
the source, which guards on `listings.length > 0`). -/
def jsMin : List Int → Int
  | [] => 0
  | x :: xs => xs.foldl min x

/-- `fetchSinglePrice` (App.js lines 88-128).  Checks the cache first and
returns the cached payload re-extended with the id on a valid hit; otherwise
performs the fetch (`resp` is that fetch's outcome): a non-2xx response
throws, a body with at least one listing yields a record built from the
minimum `pricePerUnit` and is also written back to the cache, and a body
with no listings yields `null`.  Result: (thrown-or-returned value,
store afterwards, number of network requests made). -/
def fetchSinglePrice (itemName : ItemId → String) (fmt : Int → String)
    (now : Int) (resp : SingleResp) (s : Store) (id : ItemId) :
    Except String (Option PriceRecord) × Store × Nat :=
  match (getPriceFromCache now s id).1 with
  | some cachedPrice =>
      (Except.ok (some (PriceRecord.ofPayload id cachedPrice)),
       (getPriceFromCache now s id).2, 0)
  | none =>
      match resp with
      | SingleResp.httpError =>
          (Except.error ("APIエラー: アイテムID " ++ id ++ " の取得に失敗しました"),
           (getPriceFromCache now s id).2, 1)
      | SingleResp.ok data =>
          if 0 < data.listings.length then
            let minPrice := jsMin (data.listings.map (fun l => l.pricePerUnit))
            let result : PriceRecord :=
              { id := id
                name := itemName id
                price := minPrice
                averagePrice := data.averagePrice
                lastUploadTime := fmt data.lastUploadTime
                listingsCount := data.listings.length }
            (Except.ok (some result),
             cachePriceData now (getPriceFromCache now s id).2 id
               { name := itemName id
                 price := minPrice
                 averagePrice := data.averagePrice
                 lastUploadTime := fmt data.lastUploadTime
                 listingsCount := data.listings.length },
             1)
          else
            (Except.ok none, (getPriceFromCache now s id).2, 1)

/-- The payload `fetchSinglePrice` resolves from a fetched body (both the
returned record's fields and the cached payload in the source are this very
field list). -/
def resolvedPayload (itemName : ItemId → String) (fmt : Int → String)
    (id : ItemId) (data : ApiData) : CachePayload :=
  { name := itemName id
    price := jsMin (data.listings.map (fun l => l.pricePerUnit))
    averagePrice := data.averagePrice
    lastUploadTime := fmt data.lastUploadTime
    listingsCount := data.listings.length }

/-- A cache read that misses leaves no entry under the read key. -/
theorem getPriceFromCache_miss_none (now : Int) (s : Store) (id : ItemId)
    (h : (getPriceFromCache now s id).1 = none) :
    (getPriceFromCache now s id).2 id = none := by
  unfold getPriceFromCache at h ⊢
  match hs : s id with
  | some (p, t) =>
      rw [hs] at h
      by_cases hv : now - t < CACHE_DURATION
      · simp [hv] at h
      · simp [hv, storeRemove]
  | none => exact hs

/-- A cache read never touches other keys. -/
theorem getPriceFromCache_frame (now : Int) (s : Store) (id j : ItemId)
    (hne : j ≠ id) : (getPriceFromCache now s id).2 j = s j := by
  unfold getPriceFromCache
  match hs : s id with
  | some (p, t) =>
      by_cases hv : now - t < CACHE_DURATION
      · simp [hv]
      · simp [hv, storeRemove, hne]
  | none => simp

/-- The cache read's result depends only on the entry under the read key. -/
theorem getPriceFromCache_fst_congr (now : Int) (s₁ s₂ : Store) (id : ItemId)
    (h : s₁ id = s₂ id) :
    (getPriceFromCache now s₁ id).1 = (getPriceFromCache now s₂ id).1 := by
  unfold getPriceFromCache
  rw [h]
  match s₂ id with
  | some (p, t) => by_cases hv : now - t < CACHE_DURATION <;> simp [hv]
  | none => rfl

/-- On a valid cache hit `fetchSinglePrice` reconstructs the cached payload
with the id, leaves the store alone and performs no fetch. -/
theorem fetchSinglePrice_hit (itemName : ItemId → String) (fmt : Int → String)
    (now : Int) (resp : SingleResp) (s : Store) (id : ItemId)
    (p : CachePayload) (t : Int) (hs : s id = some (p, t))
    (hv : now - t < CACHE_DURATION) :
    fetchSinglePrice itemName fmt now resp s id
      = (Except.ok (some (PriceRecord.ofPayload id p)), s, 0) := by
  unfold fetchSinglePrice getPriceFromCache
  rw [hs]
  simp [hv]

/-- On a cache miss answered by a 2xx body with at least one listing,
`fetchSinglePrice` returns the resolved record, writes the resolved payload
(timestamped `now`) to the cache, and performs one fetch. -/
theorem fetchSinglePrice_miss_success (itemName : ItemId → String)
    (fmt : Int → String) (now : Int) (data : ApiData) (s : Store) (id : ItemId)
    (hmiss : (getPriceFromCache now s id).1 = none)
    (hl : 0 < data.listings.length) :
    fetchSinglePrice itemName fmt now (SingleResp.ok data) s id
      = (Except.ok (some (PriceRecord.ofPayload id
            (resolvedPayload itemName fmt id data))),
         cachePriceData now (getPriceFromCache now s id).2 id
           (resolvedPayload itemName fmt id data),
         1) := by
  unfold fetchSinglePrice
  rw [hmiss]
  simp [hl, resolvedPayload, PriceRecord.ofPayload]

/-- On a cache miss answered by a non-2xx status, `fetchSinglePrice` throws,
leaving the post-read store, after one fetch. -/
theorem fetchSinglePrice_miss_httpError (itemName : ItemId → String)
    (fmt : Int → String) (now : Int) (s : Store) (id : ItemId)
    (hmiss : (getPriceFromCache now s id).1 = none) :
    fetchSinglePrice itemName fmt now SingleResp.httpError s id
      = (Except.error ("APIエラー: アイテムID " ++ id ++ " の取得に失敗しました"),
         (getPriceFromCache now s id).2, 1) := by
  unfold fetchSinglePrice
  rw [hmiss]

/-- On a cache miss answered by a 2xx body with no listings,
`fetchSinglePrice` returns `null`, writes nothing, after one fetch. -/
theorem fetchSinglePrice_miss_empty (itemName : ItemId → String)
    (fmt : Int → String) (now : Int) (data : ApiData) (s : Store) (id : ItemId)
    (hmiss : (getPriceFromCache now s id).1 = none)
    (hl : data.listings.length = 0) :
    fetchSinglePrice itemName fmt now (SingleResp.ok data) s id
      = (Except.ok none, (getPriceFromCache now s id).2, 1) := by
  unfold fetchSinglePrice
  rw [hmiss]
  simp [hl]

/-! ## Idempotent resolution (C5) and cache round-trip (C10) -/

/-- A concrete single-item response used by several witnesses: two listings
at 100 and 80 gil, average price 90, upload time 0. -/
def sampleData : ApiData := ⟨[⟨100⟩, ⟨80⟩], 90, 0⟩

/-- C5 counterexample: resolving id "1" twice at the same instant (well
within the TTL window) against a 2xx response with zero listings issues two
network requests, not at most one — the first resolution caches nothing, so
the second call fetches again. -/
theorem c5_counterexample :
    ¬ ((fetchSinglePrice (fun _ => "") (fun _ => "") 0
          (SingleResp.ok ⟨[], 0, 0⟩) emptyStore "1").2.2 +
       (fetchSinglePrice (fun _ => "") (fun _ => "") 0
          (SingleResp.ok ⟨[], 0, 0⟩)
          ((fetchSinglePrice (fun _ => "") (fun _ => "") 0
              (SingleResp.ok ⟨[], 0, 0⟩) emptyStore "1").2.1) "1").2.2 ≤ 1) := by
  decide

/-- C5 (amended): if the first resolution of `id` performs a successful
fetch — a cache miss answered with at least one listing, caching the payload
at time `T` — then a second `fetchSinglePrice` for `id` at any `Tp` with
`Tp - T < CACHE_DURATION` is served from the cache: it performs no fetch
(so one network request in total) and returns the same value. -/
theorem c5_idempotent_within_ttl (itemName : ItemId → String)
    (fmt : Int → String) (T Tp : Int) (resp₂ : SingleResp) (data : ApiData)
    (s : Store) (id : ItemId)
    (hmiss : (getPriceFromCache T s id).1 = none)
    (hl : 0 < data.listings.length)
    (hTTL : Tp - T < CACHE_DURATION) :
    (fetchSinglePrice itemName fmt T (SingleResp.ok data) s id).2.2 = 1 ∧
    (fetchSinglePrice itemName fmt Tp resp₂
        (fetchSinglePrice itemName fmt T (SingleResp.ok data) s id).2.1 id).2.2
      = 0 ∧
    (fetchSinglePrice itemName fmt Tp resp₂
        (fetchSinglePrice itemName fmt T (SingleResp.ok data) s id).2.1 id).1
      = (fetchSinglePrice itemName fmt T (SingleResp.ok data) s id).1 := by
  have h1 := fetchSinglePrice_miss_success itemName fmt T data s id hmiss hl
  have hstore : (fetchSinglePrice itemName fmt T (SingleResp.ok data) s id).2.1 id
      = some (resolvedPayload itemName fmt id data, T) := by
    rw [h1]
    simp [cachePriceData, storeSet]
  have h2 := fetchSinglePrice_hit itemName fmt Tp resp₂
    ((fetchSinglePrice itemName fmt T (SingleResp.ok data) s id).2.1) id
    (resolvedPayload itemName fmt id data) T hstore hTTL
  refine ⟨by rw [h1], by rw [h2], ?_⟩
  rw [h2, h1]

/-- Witness for the amended C5: a miss at time 0 resolved with two listings,
re-resolved at 1000 ms — one fetch, then zero. -/
theorem c5_idempotent_within_ttl_witness :
    (fetchSinglePrice (fun _ => "銘") (fun _ => "t0") 0
        (SingleResp.ok sampleData) emptyStore "1").2.2 = 1 ∧
    (fetchSinglePrice (fun _ => "銘") (fun _ => "t0") 1000 SingleResp.httpError
        ((fetchSinglePrice (fun _ => "銘") (fun _ => "t0") 0
            (SingleResp.ok sampleData) emptyStore "1").2.1) "1").2.2 = 0 :=
  ⟨(c5_idempotent_within_ttl (fun _ => "銘") (fun _ => "t0") 0 1000
      SingleResp.httpError sampleData emptyStore "1" rfl (by decide) (by decide)).1,
   (c5_idempotent_within_ttl (fun _ => "銘") (fun _ => "t0") 0 1000
      SingleResp.httpError sampleData emptyStore "1" rfl (by decide) (by decide)).2.1⟩

/-- C10: a successful network resolution returns exactly the payload it
writes to the cache, extended with the id; and a later cache hit for the same
id within the TTL reconstructs the identical `PriceRecord`, field for field. -/
theorem c10_cache_roundtrip (itemName : ItemId → String) (fmt : Int → String)
    (T Tp : Int) (resp₂ : SingleResp) (data : ApiData) (s : Store) (id : ItemId)
    (hmiss : (getPriceFromCache T s id).1 = none)
    (hl : 0 < data.listings.length)
    (hTTL : Tp - T < CACHE_DURATION) :
    (fetchSinglePrice itemName fmt T (SingleResp.ok data) s id).1
      = Except.ok (some (PriceRecord.ofPayload id
          (resolvedPayload itemName fmt id data))) ∧
    (fetchSinglePrice itemName fmt T (SingleResp.ok data) s id).2.1 id
      = some (resolvedPayload itemName fmt id data, T) ∧
    (fetchSinglePrice itemName fmt Tp resp₂
        (fetchSinglePrice itemName fmt T (SingleResp.ok data) s id).2.1 id).1
      = Except.ok (some (PriceRecord.ofPayload id
          (resolvedPayload itemName fmt id data))) := by
  have h1 := fetchSinglePrice_miss_success itemName fmt T data s id hmiss hl
  have hstore : (fetchSinglePrice itemName fmt T (SingleResp.ok data) s id).2.1 id
      = some (resolvedPayload itemName fmt id data, T) := by
    rw [h1]
    simp [cachePriceData, storeSet]
  have h2 := fetchSinglePrice_hit itemName fmt Tp resp₂
    ((fetchSinglePrice itemName fmt T (SingleResp.ok data) s id).2.1) id
    (resolvedPayload itemName fmt id data) T hstore hTTL
  exact ⟨by rw [h1], hstore, by rw [h2]⟩

/-- Witness for C10 at a concrete miss-then-hit pair of calls. -/
theorem c10_cache_roundtrip_witness :
    (fetchSinglePrice (fun _ => "銘") (fun _ => "t0") 0
        (SingleResp.ok sampleData) emptyStore "9").1
      = Except.ok (some (PriceRecord.ofPayload "9"
          (resolvedPayload (fun _ => "銘") (fun _ => "t0") "9" sampleData))) ∧
    (fetchSinglePrice (fun _ => "銘") (fun _ => "t0") 0
        (SingleResp.ok sampleData) emptyStore "9").2.1 "9"
      = some (resolvedPayload (fun _ => "銘") (fun _ => "t0") "9" sampleData, 0) ∧
    (fetchSinglePrice (fun _ => "銘") (fun _ => "t0") 299999 SingleResp.httpError
        ((fetchSinglePrice (fun _ => "銘") (fun _ => "t0") 0
            (SingleResp.ok sampleData) emptyStore "9").2.1) "9").1
      = Except.ok (some (PriceRecord.ofPayload "9"
          (resolvedPayload (fun _ => "銘") (fun _ => "t0") "9" sampleData))) :=
  c10_cache_roundtrip (fun _ => "銘") (fun _ => "t0") 0 299999
    SingleResp.httpError sampleData emptyStore "9" rfl (by decide) (by decide)

/-! ## Bulk strategy: `fetchPricesBulk` (bulk variant, lines 122-193) -/

/-- The outcome of one `fetch` of the multi-item endpoint: a non-2xx status,
or a 2xx body whose `items` object maps each id to its listing data (an id
absent from the object reads as `undefined`, here `none`). -/
inductive BulkResp where
  | httpError
  | ok (items : ItemId → Option ApiData)

/-- One iteration of the `for (const id of ids)` loop of `fetchPricesBulk`:
an id present in the response with at least one listing contributes a record
(minimum `pricePerUnit`) and a cache write; any other id is skipped. -/
def bulkStep (itemName : ItemId → String) (fmt : Int → String) (now : Int)
    (items : ItemId → Option ApiData) (st : List PriceRecord × Store)
    (id : ItemId) : List PriceRecord × Store :=
  match items id with
  | some item =>
      if 0 < item.listings.length then
        let minPrice := jsMin (item.listings.map (fun l => l.pricePerUnit))
        let result : PriceRecord :=
          { id := id
            name := itemName id
            price := minPrice
            averagePrice := item.averagePrice
            lastUploadTime := fmt item.lastUploadTime
            listingsCount := item.listings.length }
        (st.1 ++ [result],
         cachePriceData now st.2 id
           { name := itemName id
             price := minPrice
             averagePrice := item.averagePrice
             lastUploadTime := fmt item.lastUploadTime
             listingsCount := item.listings.length })
      else st
  | none => st

/-- The record/store accumulation of `fetchPricesBulk` over the requested
ids, in request order. -/
def bulkRun (itemName : ItemId → String) (fmt : Int → String) (now : Int)
    (items : ItemId → Option ApiData) (s : Store) (ids : List ItemId) :
    List PriceRecord × Store :=
  ids.foldl (bulkStep itemName fmt now items) ([], s)

/-- `fetchPricesBulk` (bulk variant lines 122-158): one bulk request carrying
the comma-joined ids; a non-2xx status throws; otherwise the loop over the
requested ids accumulates records and cache writes. -/
def fetchPricesBulk (itemName : ItemId → String) (fmt : Int → String)
    (now : Int) (resp : BulkResp) (s : Store) (ids : List ItemId) :
    Except String (List PriceRecord × Store) :=
  match resp with
  | BulkResp.httpError => Except.error "APIエラー: アイテムの一括取得に失敗しました"
  | BulkResp.ok items => Except.ok (bulkRun itemName fmt now items s ids)

/-- The 100-id chunking of the bulk variant's `fetchPriceBatch` (lines
173-177): `for (let i = 0; i < itemIds.length; i += 100)
chunks.push(itemIds.slice(i, i + 100))`. -/
def chunks100 : List ItemId → List (List ItemId)
  | [] => []
  | x :: xs => ((x :: xs).take 100) :: chunks100 ((x :: xs).drop 100)
termination_by l => l.length
decreasing_by
  simp [List.length_drop]
  omega

/-- A step of the bulk loop either leaves the accumulated records alone or
appends exactly the record resolved for the stepped id. -/
theorem bulkStep_fst (itemName : ItemId → String) (fmt : Int → String)
    (now : Int) (items : ItemId → Option ApiData)
    (st : List PriceRecord × Store) (id : ItemId) :
    (bulkStep itemName fmt now items st id).1 = st.1 ∨
    ∃ item, items id = some item ∧ 0 < item.listings.length ∧
      (bulkStep itemName fmt now items st id).1
        = st.1 ++ [⟨id, itemName id,
            jsMin (item.listings.map (fun l => l.pricePerUnit)),
            item.averagePrice, fmt item.lastUploadTime, item.listings.length⟩] := by
  unfold bulkStep
  match hit : items id with
  | some item =>
      by_cases hl : 0 < item.listings.length
      · exact Or.inr ⟨item, rfl, hl, by simp [hl]⟩
      · simp [hl]
  | none => simp

/-- A step of the bulk loop writes no cache key other than the stepped id. -/
theorem bulkStep_snd_frame (itemName : ItemId → String) (fmt : Int → String)
    (now : Int) (items : ItemId → Option ApiData)
    (st : List PriceRecord × Store) (j k : ItemId) (hne : k ≠ j) :
    (bulkStep itemName fmt now items st j).2 k = st.2 k := by
  unfold bulkStep
  match hit : items j with
  | some item =>
      by_cases hl : 0 < item.listings.length
      · simp [hl, cachePriceData, storeSet, hne]
      · simp [hl]
  | none => rfl

/-- Records already accumulated survive the rest of the bulk loop. -/
theorem bulkFold_mem_mono (itemName : ItemId → String) (fmt : Int → String)
    (now : Int) (items : ItemId → Option ApiData) :
    ∀ (ids : List ItemId) (st : List PriceRecord × Store) (r : PriceRecord),
      r ∈ st.1 → r ∈ (ids.foldl (bulkStep itemName fmt now items) st).1 := by
  intro ids
  induction ids with
  | nil => intro st r h; exact h
  | cons j rest ih =>
      intro st r h
      rw [List.foldl_cons]
      apply ih
      rcases bulkStep_fst itemName fmt now items st j with he | ⟨item, _, _, he⟩ <;>
        rw [he] <;> simp [h]

/-- A requested id present in the response with at least one listing
contributes its resolved record to the bulk loop's output. -/
theorem bulkFold_mem_of_hit (itemName : ItemId → String) (fmt : Int → String)
    (now : Int) (items : ItemId → Option ApiData) (id : ItemId)
    (item : ApiData) (hit : items id = some item)
    (hl : 0 < item.listings.length) :
    ∀ (ids : List ItemId) (st : List PriceRecord × Store), id ∈ ids →
      (⟨id, itemName id, jsMin (item.listings.map (fun l => l.pricePerUnit)),
        item.averagePrice, fmt item.lastUploadTime,
        item.listings.length⟩ : PriceRecord)
        ∈ (ids.foldl (bulkStep itemName fmt now items) st).1 := by
  intro ids
  induction ids with
  | nil => intro st h; cases h
  | cons j rest ih =>
      intro st hmem
      rw [List.foldl_cons]
      rcases List.mem_cons.mp hmem with heq | hmem2
      · subst heq
        apply bulkFold_mem_mono
        unfold bulkStep
        rw [hit]
        simp [hl]
      · exact ih _ hmem2

/-- An id absent from the bulk response, or present with zero listings,
contributes no record and no cache write anywhere in the bulk loop. -/
theorem bulkFold_skip (itemName : ItemId → String) (fmt : Int → String)
    (now : Int) (items : ItemId → Option ApiData) (id : ItemId)
    (hbad : items id = none ∨
            ∃ item, items id = some item ∧ item.listings.length = 0) :
    ∀ (ids : List ItemId) (st : List PriceRecord × Store),
      (∀ r ∈ st.1, r.id ≠ id) →
      (∀ r ∈ (ids.foldl (bulkStep itemName fmt now items) st).1, r.id ≠ id) ∧
      (ids.foldl (bulkStep itemName fmt now items) st).2 id = st.2 id := by
  intro ids
  induction ids with
  | nil => intro st h; exact ⟨h, rfl⟩
  | cons j rest ih =>
      intro st hacc
      rw [List.foldl_cons]
      by_cases hj : j = id
      · subst hj
        have hstep : bulkStep itemName fmt now items st j = st := by
          unfold bulkStep
          rcases hbad with hb | ⟨item, hb, hl⟩
          · rw [hb]
          · rw [hb]; simp [hl]
        rw [hstep]
        exact ih st hacc
      · have hfrr : ∀ r ∈ (bulkStep itemName fmt now items st j).1, r.id ≠ id := by
          rcases bulkStep_fst itemName fmt now items st j with he | ⟨item, _, _, he⟩
          · rw [he]; exact hacc
          · rw [he]
            intro r hr
            rcases List.mem_append.mp hr with hr1 | hr2
            · exact hacc r hr1
            · rcases List.mem_singleton.mp hr2 with rfl
              simpa using hj
        have := ih (bulkStep itemName fmt now items st j) hfrr
        refine ⟨this.1, ?_⟩
        rw [this.2]
        exact bulkStep_snd_frame itemName fmt now items st j id
          (fun h => hj h.symm)

/-- C6: an id whose fetch sees a non-2xx status or a body with zero listings
yields no `PriceRecord` and leaves nothing in the Cache Store for that id —
it is not cached-as-empty.  First conjunct: the single strategy
(`fetchSinglePrice` throws or returns `null`, and the post-call store holds no
entry for the id).  Second conjunct: the bulk strategy (`fetchPricesBulk`
completes without error, produces no record carrying the id, and leaves the
id's cache key exactly as it was). -/
theorem c6_no_record_not_cached :
    (∀ (itemName : ItemId → String) (fmt : Int → String) (now : Int)
       (resp : SingleResp) (s : Store) (id : ItemId),
       (getPriceFromCache now s id).1 = none →
       (resp = SingleResp.httpError ∨
        ∃ data, resp = SingleResp.ok data ∧ data.listings.length = 0) →
       (∀ r : PriceRecord,
          (fetchSinglePrice itemName fmt now resp s id).1 ≠ Except.ok (some r)) ∧
       (fetchSinglePrice itemName fmt now resp s id).2.1 id = none) ∧
    (∀ (itemName : ItemId → String) (fmt : Int → String) (now : Int)
       (items : ItemId → Option ApiData) (s : Store) (ids : List ItemId)
       (id : ItemId),
       (items id = none ∨
        ∃ item, items id = some item ∧ item.listings.length = 0) →
       fetchPricesBulk itemName fmt now (BulkResp.ok items) s ids
         = Except.ok (bulkRun itemName fmt now items s ids) ∧
       (∀ r ∈ (bulkRun itemName fmt now items s ids).1, r.id ≠ id) ∧
       (bulkRun itemName fmt now items s ids).2 id = s id) := by
  constructor
  · intro itemName fmt now resp s id hmiss hbad
    have hnone := getPriceFromCache_miss_none now s id hmiss
    rcases hbad with hb | ⟨data, hb, hl⟩
    · subst hb
      rw [fetchSinglePrice_miss_httpError itemName fmt now s id hmiss]
      exact ⟨by simp, hnone⟩
    · subst hb
      rw [fetchSinglePrice_miss_empty itemName fmt now data s id hmiss hl]
      exact ⟨by simp, hnone⟩
  · intro itemName fmt now items s ids id hbad
    have hrun := bulkFold_skip itemName fmt now items id hbad ids ([], s)
      (by intro r hr; cases hr)
    exact ⟨rfl, hrun.1, hrun.2⟩

/-- Witness for C6: id "7" answered by a non-2xx status leaves no cache
entry, and a bulk run over ["7"] with "7" absent from the response leaves the
store untouched at "7". -/
theorem c6_no_record_not_cached_witness :
    (fetchSinglePrice (fun _ => "銘") (fun _ => "t0") 0 SingleResp.httpError
        emptyStore "7").2.1 "7" = none ∧
    (bulkRun (fun _ => "銘") (fun _ => "t0") 0 (fun _ => none) emptyStore
        ["7"]).2 "7" = emptyStore "7" :=
  ⟨(c6_no_record_not_cached.1 (fun _ => "銘") (fun _ => "t0") 0
      SingleResp.httpError emptyStore "7" rfl (Or.inl rfl)).2,
   (c6_no_record_not_cached.2 (fun _ => "銘") (fun _ => "t0") 0
      (fun _ => none) emptyStore ["7"] "7" (Or.inl rfl)).2.2⟩

theorem chunks100_length_le_aux :
    ∀ (fuel : Nat) (l : List ItemId), l.length ≤ fuel →
      ∀ c ∈ chunks100 l, c.length ≤ 100 := by
  intro fuel
  induction fuel with
  | zero =>
      intro l h c hc
      have : l = [] := List.length_eq_zero.mp (Nat.le_zero.mp h)
      subst this
      simp [chunks100] at hc
  | succ fuel ih =>
      intro l h c hc
      cases l with
      | nil => simp [chunks100] at hc
      | cons x xs =>
          rw [chunks100] at hc
          rcases List.mem_cons.mp hc with he | hm
          · subst he
            rw [List.length_take]
            exact Nat.min_le_left _ _
          · refine ih ((x :: xs).drop 100) ?_ c hm
            rw [List.length_drop]
            simp only [List.length_cons] at h ⊢
            omega

/-- Every chunk the bulk dispatcher builds holds at most 100 ids. -/
theorem chunks100_length_le (l : List ItemId) :
    ∀ c ∈ chunks100 l, c.length ≤ 100 :=
  chunks100_length_le_aux l.length l (Nat.le_refl _)

/-- The spec's bulk-response scenario: item "1" carries listings at 100 and
80 gil, average 90, upload time 0; every other id is absent. -/
def scenarioItems : ItemId → Option ApiData :=
  fun id => if id = "1" then some ⟨[⟨100⟩, ⟨80⟩], 90, 0⟩ else none

/-- C7: (1) the ids joined into one bulk request come in chunks of at most
100; (2) every requested id present in the response with at least one listing
yields a record whose `price` is the minimum `pricePerUnit` and whose
`listingsCount` is the number of listings; (3) an id absent from the response
or with zero listings is omitted without error; (4) the concrete scenario:
request ["1","2"] against a response holding only item "1" (listings 100 and
80) yields exactly one record, for id "1", with price 80, listings count 2. -/
theorem c7_bulk_fetch :
    (∀ ids : List ItemId, ∀ c ∈ chunks100 ids, c.length ≤ 100) ∧
    (∀ (itemName : ItemId → String) (fmt : Int → String) (now : Int)
       (items : ItemId → Option ApiData) (s : Store) (ids : List ItemId)
       (id : ItemId) (item : ApiData),
       id ∈ ids → items id = some item → 0 < item.listings.length →
       (⟨id, itemName id, jsMin (item.listings.map (fun l => l.pricePerUnit)),
         item.averagePrice, fmt item.lastUploadTime,
         item.listings.length⟩ : PriceRecord)
         ∈ (bulkRun itemName fmt now items s ids).1) ∧
    (∀ (itemName : ItemId → String) (fmt : Int → String) (now : Int)
       (items : ItemId → Option ApiData) (s : Store) (ids : List ItemId)
       (id : ItemId),
       (items id = none ∨
        ∃ item, items id = some item ∧ item.listings.length = 0) →
       fetchPricesBulk itemName fmt now (BulkResp.ok items) s ids
         = Except.ok (bulkRun itemName fmt now items s ids) ∧
       ∀ r ∈ (bulkRun itemName fmt now items s ids).1, r.id ≠ id) ∧
    (∀ (itemName : ItemId → String) (fmt : Int → String) (now : Int)
       (s : Store),
       (bulkRun itemName fmt now scenarioItems s ["1", "2"]).1
         = [⟨"1", itemName "1", 80, 90, fmt 0, 2⟩]) := by
  refine ⟨chunks100_length_le, ?_, ?_, ?_⟩
  · intro itemName fmt now items s ids id item hmem hit hl
    exact bulkFold_mem_of_hit itemName fmt now items id item hit hl ids ([], s) hmem
  · intro itemName fmt now items s ids id hbad
    have hrun := bulkFold_skip itemName fmt now items id hbad ids ([], s)
      (by intro r hr; cases hr)
    exact ⟨rfl, hrun.1⟩
  · intro itemName fmt now s
    rfl

/-- Witness for C7: the spec scenario evaluated at concrete name and
timestamp formatters, together with the general membership clause applied to
it. -/
theorem c7_bulk_fetch_witness :
    (bulkRun (fun _ => "銘") (fun _ => "t0") 0 scenarioItems emptyStore
        ["1", "2"]).1 = [⟨"1", "銘", 80, 90, "t0", 2⟩] ∧
    (⟨"1", "銘", 80, 90, "t0", 2⟩ : PriceRecord)
      ∈ (bulkRun (fun _ => "銘") (fun _ => "t0") 0 scenarioItems emptyStore
          ["1", "2"]).1 :=
  ⟨c7_bulk_fetch.2.2.2 (fun _ => "銘") (fun _ => "t0") 0 emptyStore,
   c7_bulk_fetch.2.1 (fun _ => "銘") (fun _ => "t0") 0 scenarioItems emptyStore
     ["1", "2"] "1" ⟨[⟨100⟩, ⟨80⟩], 90, 0⟩ (by decide) rfl (by decide)⟩

/-! ## The dispatch group: `fetchPriceBatch` (App.js lines 134-163)

The source submits one task per id to a `p-queue` (concurrency 8, interval
cap 25/s) and drains it with `queue.onIdle()`.  JavaScript being
single-threaded, each task body runs without preemption; the model executes
the task bodies sequentially in submission order (the admission schedule only
affects timing, which the claims below do not mention). -/

/-- One queued task of `fetchPriceBatch`: await `fetchSinglePrice`, push a
non-null result, and catch any error at the task boundary (`catch (err)
console.error(...)`), contributing zero records. -/
def batchTask (itemName : ItemId → String) (fmt : Int → String) (now : Int)
    (resp : ItemId → SingleResp) (st : Store × List PriceRecord)
    (id : ItemId) : Store × List PriceRecord :=
  match fetchSinglePrice itemName fmt now (resp id) st.1 id with
  | (Except.ok (some result), s₂, _) => (s₂, st.2 ++ [result])
  | (Except.ok none, s₂, _) => (s₂, st.2)
  | (Except.error _, s₂, _) => (s₂, st.2)

/-- `fetchPriceBatch` (App.js lines 134-163): run one task per id of the
dispatch group and return the collected records (with the store after all
tasks).  It is a total function — no error escapes the task boundary. -/
def fetchPriceBatch (itemName : ItemId → String) (fmt : Int → String)
    (now : Int) (resp : ItemId → SingleResp) (s : Store)
    (ids : List ItemId) : Store × List PriceRecord :=
  ids.foldl (batchTask itemName fmt now resp) (s, [])

/-- A record returned by `fetchSinglePrice` carries the id it was fetched
for. -/
theorem fetchSinglePrice_result_id (itemName : ItemId → String)
    (fmt : Int → String) (now : Int) (resp : SingleResp) (s : Store)
    (id : ItemId) (r : PriceRecord)
    (h : (fetchSinglePrice itemName fmt now resp s id).1 = Except.ok (some r)) :
    r.id = id := by
  unfold fetchSinglePrice at h
  match hgp : (getPriceFromCache now s id).1 with
  | some p =>
      rw [hgp] at h
      simp only [Except.ok.injEq, Option.some.injEq] at h
      rw [← h]
      rfl
  | none =>
      rw [hgp] at h
      match resp with
      | SingleResp.httpError => simp at h
      | SingleResp.ok data =>
          by_cases hl : 0 < data.listings.length
          · simp only [hl, if_true, Except.ok.injEq, Option.some.injEq] at h
            rw [← h]
          · simp [hl] at h

/-- `fetchSinglePrice` touches no cache key other than the fetched id. -/
theorem fetchSinglePrice_store_frame (itemName : ItemId → String)
    (fmt : Int → String) (now : Int) (resp : SingleResp) (s : Store)
    (id j : ItemId) (hne : j ≠ id) :
    (fetchSinglePrice itemName fmt now resp s id).2.1 j = s j := by
  have hframe := getPriceFromCache_frame now s id j hne
  unfold fetchSinglePrice
  match hgp : (getPriceFromCache now s id).1 with
  | some p => exact hframe
  | none =>
      match resp with
      | SingleResp.httpError => exact hframe
      | SingleResp.ok data =>
          by_cases hl : 0 < data.listings.length
          · simp only [hl, if_true]
            unfold cachePriceData storeSet
            simp [hne, hframe]
          · simp only [hl, if_false]
            exact hframe

/-- One batch task for a missing-and-failing id is a pure store read: the
error is caught, no record is pushed, and the id's key stays empty. -/
theorem batchTask_failing (itemName : ItemId → String) (fmt : Int → String)
    (now : Int) (resp : ItemId → SingleResp)
    (st : Store × List PriceRecord) (id : ItemId)
    (hresp : resp id = SingleResp.httpError)
    (hmiss : (getPriceFromCache now st.1 id).1 = none) :
    batchTask itemName fmt now resp st id
      = ((getPriceFromCache now st.1 id).2, st.2) := by
  unfold batchTask
  rw [hresp, fetchSinglePrice_miss_httpError itemName fmt now st.1 id hmiss]

/-- Each batch task appends at most one record. -/
theorem batchTask_snd_len (itemName : ItemId → String) (fmt : Int → String)
    (now : Int) (resp : ItemId → SingleResp)
    (st : Store × List PriceRecord) (id : ItemId) :
    (batchTask itemName fmt now resp st id).2.length ≤ st.2.length + 1 := by
  unfold batchTask
  match fetchSinglePrice itemName fmt now (resp id) st.1 id with
  | (Except.ok (some result), s₂, n) => simp
  | (Except.ok none, s₂, n) => simp
  | (Except.error e, s₂, n) => simp

/-- Any record a batch task appends carries the id of its own task. -/
theorem batchTask_snd_mem (itemName : ItemId → String) (fmt : Int → String)
    (now : Int) (resp : ItemId → SingleResp)
    (st : Store × List PriceRecord) (id : ItemId) (r : PriceRecord)
    (hr : r ∈ (batchTask itemName fmt now resp st id).2) :
    r ∈ st.2 ∨ r.id = id := by
  unfold batchTask at hr
  match hout : fetchSinglePrice itemName fmt now (resp id) st.1 id with
  | (Except.ok (some result), s₂, n) =>
      rw [hout] at hr
      simp only [List.mem_append, List.mem_singleton] at hr
      rcases hr with hr1 | rfl
      · exact Or.inl hr1
      · refine Or.inr (fetchSinglePrice_result_id itemName fmt now (resp id)
          st.1 id r ?_)
        rw [hout]
  | (Except.ok none, s₂, n) =>
      rw [hout] at hr
      exact Or.inl hr
  | (Except.error e, s₂, n) =>
      rw [hout] at hr
      exact Or.inl hr

/-- A batch task writes no cache key other than its own id. -/
theorem batchTask_store_frame (itemName : ItemId → String)
    (fmt : Int → String) (now : Int) (resp : ItemId → SingleResp)
    (st : Store × List PriceRecord) (id j : ItemId) (hne : j ≠ id) :
    (batchTask itemName fmt now resp st id).1 j = st.1 j := by
  have hframe := fetchSinglePrice_store_frame itemName fmt now (resp id)
    st.1 id j hne
  unfold batchTask
  match hout : fetchSinglePrice itemName fmt now (resp id) st.1 id with
  | (Except.ok (some result), s₂, n) =>
      rw [hout] at hframe
      exact hframe
  | (Except.ok none, s₂, n) =>
      rw [hout] at hframe
      exact hframe
  | (Except.error e, s₂, n) =>
      rw [hout] at hframe
      exact hframe

/-- Generic length bound: a run of batch tasks grows the record list by at
most one record per id. -/
theorem batchFold_len (itemName : ItemId → String) (fmt : Int → String)
    (now : Int) (resp : ItemId → SingleResp) :
    ∀ (ids : List ItemId) (st : Store × List PriceRecord),
      (ids.foldl (batchTask itemName fmt now resp) st).2.length
        ≤ st.2.length + ids.length := by
  intro ids
  induction ids with
  | nil => intro st; simp
  | cons j rest ih =>
      intro st
      rw [List.foldl_cons]
      have h1 := ih (batchTask itemName fmt now resp st j)
      have h2 := batchTask_snd_len itemName fmt now resp st j
      simp only [List.length_cons]
      omega

/-- The error-containment invariant: once the failing id's cache key is
empty and no accumulated record carries it, the rest of the run keeps it
that way and, if the failing id is still to be processed, loses one unit of
the length budget. -/
theorem batchFold_invariant (itemName : ItemId → String) (fmt : Int → String)
    (now : Int) (resp : ItemId → SingleResp) (id₀ : ItemId)
    (hresp : resp id₀ = SingleResp.httpError) :
    ∀ (ids : List ItemId) (st : Store × List PriceRecord),
      st.1 id₀ = none →
      (∀ r ∈ st.2, r.id ≠ id₀) →
      (∀ r ∈ (ids.foldl (batchTask itemName fmt now resp) st).2, r.id ≠ id₀) ∧
      (id₀ ∈ ids →
        (ids.foldl (batchTask itemName fmt now resp) st).2.length + 1
          ≤ st.2.length + ids.length) := by
  intro ids
  induction ids with
  | nil =>
      intro st hkey hacc
      exact ⟨hacc, by intro h; cases h⟩
  | cons j rest ih =>
      intro st hkey hacc
      rw [List.foldl_cons]
      by_cases hj : j = id₀
      · subst hj
        have hmiss : (getPriceFromCache now st.1 j).1 = none := by
          unfold getPriceFromCache
          rw [hkey]
        have hstep := batchTask_failing itemName fmt now resp st j hresp hmiss
        have hkey2 : (batchTask itemName fmt now resp st j).1 j = none := by
          rw [hstep]
          exact getPriceFromCache_miss_none now st.1 j hmiss
        have hacc2 : ∀ r ∈ (batchTask itemName fmt now resp st j).2, r.id ≠ j := by
          rw [hstep]
          exact hacc
        have hrec := ih (batchTask itemName fmt now resp st j) hkey2 hacc2
        refine ⟨hrec.1, fun _ => ?_⟩
        have hlen := batchFold_len itemName fmt now resp rest
          (batchTask itemName fmt now resp st j)
        have hsame : (batchTask itemName fmt now resp st j).2.length
            = st.2.length := by rw [hstep]
        simp only [List.length_cons]
        omega
      · have hkey2 : (batchTask itemName fmt now resp st j).1 id₀ = none := by
          rw [batchTask_store_frame itemName fmt now resp st j id₀
            (fun h => hj h.symm)]
          exact hkey
        have hacc2 : ∀ r ∈ (batchTask itemName fmt now resp st j).2,
            r.id ≠ id₀ := by
          intro r hr
          rcases batchTask_snd_mem itemName fmt now resp st j r hr with hr1 | hr2
          · exact hacc r hr1
          · rw [hr2]; exact hj
        have hrec := ih (batchTask itemName fmt now resp st j) hkey2 hacc2
        refine ⟨hrec.1, fun hmem => ?_⟩
        have hmem2 : id₀ ∈ rest := by
          rcases List.mem_cons.mp hmem with he | hm
          · exact absurd he.symm hj
          · exact hm
        have h1 := hrec.2 hmem2
        have h2 := batchTask_snd_len itemName fmt now resp st j
        simp only [List.length_cons]
        omega

/-- C4: in a dispatch group of `N` ids in which one id's fetch raises (a
non-2xx status on a cache-missing id), `fetchPriceBatch` completes as a total
function — the error is contained at the task boundary — with at most `N - 1`
records, and the failing id contributes none of them. -/
theorem c4_error_containment (itemName : ItemId → String)
    (fmt : Int → String) (now : Int) (resp : ItemId → SingleResp) (s : Store)
    (ids : List ItemId) (id₀ : ItemId)
    (hmem : id₀ ∈ ids)
    (hresp : resp id₀ = SingleResp.httpError)
    (hkey : s id₀ = none) :
    (fetchPriceBatch itemName fmt now resp s ids).2.length ≤ ids.length - 1 ∧
    ∀ r ∈ (fetchPriceBatch itemName fmt now resp s ids).2, r.id ≠ id₀ := by
  have hinv := batchFold_invariant itemName fmt now resp id₀ hresp ids (s, [])
    hkey (by intro r hr; cases hr)
  have hlen := hinv.2 hmem
  have hpos : 0 < ids.length := List.length_pos.mpr
    (by intro h; subst h; cases hmem)
  exact ⟨by simp only [List.length_nil] at hlen; unfold fetchPriceBatch; omega,
    hinv.1⟩

/-- Witness for C4: ids ["1","2"], id "2" failing with a non-2xx status —
at most one record. -/
theorem c4_error_containment_witness :
    (fetchPriceBatch (fun _ => "銘") (fun _ => "t0") 0
        (fun id => if id = "2" then SingleResp.httpError
                   else SingleResp.ok sampleData)
        emptyStore ["1", "2"]).2.length ≤ 1 :=
  (c4_error_containment (fun _ => "銘") (fun _ => "t0") 0
      (fun id => if id = "2" then SingleResp.httpError
                 else SingleResp.ok sampleData)
      emptyStore ["1", "2"] "2" (by decide) rfl rfl).1

/-! ## The result aggregator (App.js lines 198-218)

`fetchAllPrices` collects each dispatch group's results, keeps those with
`result && !result.error` (per-group results are objects without an `error`
field, or error-tagged markers), pushes them batch by batch, and finally
sorts by `price` descending with `Array.prototype.sort` — a stable sort since
ES2019.  The stable descending sort is modelled by insertion sort with the
same order, which computes the unique stable result for the comparator
`(a, b) => b.price - a.price`. -/

/-- A per-group entry as the aggregator sees it: a resolved record (its
`error` field reads as `undefined`, falsy) or an error-tagged marker. -/
inductive FetchResult where
  | record (r : PriceRecord)
  | errorMarker (msg : String)
deriving DecidableEq, Repr

/-- `batchResults.filter(result => result && !result.error)`: the records of
one group that survive the validity filter. -/
def validRecords (batchResults : List FetchResult) : List PriceRecord :=
  batchResults.filterMap (fun result =>
    match result with
    | FetchResult.record r => some r
    | FetchResult.errorMarker _ => none)

/-- The `prices` accumulation across the batch loop:
`prices.push(...validResults)` in batch order. -/
def collectPrices (groups : List (List FetchResult)) : List PriceRecord :=
  groups.foldl (fun prices batchResults => prices ++ validRecords batchResults) []

/-- Insert a record into a price-descending sorted list, before the first
entry whose price does not exceed it (equal prices keep the existing entry
later — stability). -/
def insertDesc (x : PriceRecord) : List PriceRecord → List PriceRecord
  | [] => [x]
  | y :: l => if y.price ≤ x.price then x :: y :: l else y :: insertDesc x l

/-- Stable sort by `price` descending: the result of
`prices.sort((a, b) => b.price - a.price)`. -/
def sortByPriceDesc : List PriceRecord → List PriceRecord
  | [] => []
  | x :: l => insertDesc x (sortByPriceDesc l)

/-- The aggregation of `fetchAllPrices` (lines 201-217): filter each group,
flatten in group order, sort by price descending. -/
def aggregate (groups : List (List FetchResult)) : List PriceRecord :=
  sortByPriceDesc (collectPrices groups)

theorem collectPrices_aux (groups : List (List FetchResult)) :
    ∀ acc : List PriceRecord,
      groups.foldl (fun prices batchResults =>
        prices ++ validRecords batchResults) acc
      = acc ++ (groups.map validRecords).flatten := by
  induction groups with
  | nil => intro acc; simp
  | cons g rest ih =>
      intro acc
      rw [List.foldl_cons, ih, List.map_cons, List.flatten_cons, List.append_assoc]

/-- The accumulated prices are the filtered groups, flattened in order. -/
theorem collectPrices_eq (groups : List (List FetchResult)) :
    collectPrices groups = (groups.map validRecords).flatten := by
  unfold collectPrices
  rw [collectPrices_aux groups []]
  simp

theorem mem_insertDesc (x a : PriceRecord) (l : List PriceRecord) :
    a ∈ insertDesc x l ↔ a = x ∨ a ∈ l := by
  induction l with
  | nil => simp [insertDesc]
  | cons y l ih =>
      unfold insertDesc
      by_cases h : y.price ≤ x.price
      · simp [h]
      · simp only [h, if_false, List.mem_cons, ih]
        tauto

theorem insertDesc_perm (x : PriceRecord) (l : List PriceRecord) :
    (insertDesc x l).Perm (x :: l) := by
  induction l with
  | nil => exact List.Perm.refl _
  | cons y l ih =>
      unfold insertDesc
      by_cases h : y.price ≤ x.price
      · simp only [h, if_true]
        exact List.Perm.refl _
      · simp only [h, if_false]
        exact (ih.cons y).trans (List.Perm.swap x y l)

theorem insertDesc_sorted (x : PriceRecord) (l : List PriceRecord)
    (h : l.Pairwise (fun a b => b.price ≤ a.price)) :
    (insertDesc x l).Pairwise (fun a b => b.price ≤ a.price) := by
  induction l with
  | nil => simp [insertDesc]
  | cons y l ih =>
      rw [List.pairwise_cons] at h
      unfold insertDesc
      by_cases hxy : y.price ≤ x.price
      · simp only [hxy, if_true]
        rw [List.pairwise_cons]
        refine ⟨?_, List.pairwise_cons.mpr h⟩
        intro b hb
        rcases List.mem_cons.mp hb with rfl | hb2
        · exact hxy
        · exact le_trans (h.1 b hb2) hxy
      · simp only [hxy, if_false]
        rw [List.pairwise_cons]
        refine ⟨?_, ih h.2⟩
        intro b hb
        rcases (mem_insertDesc x b l).mp hb with rfl | hb2
        · exact le_of_lt (lt_of_not_le hxy)
        · exact h.1 b hb2

theorem sortByPriceDesc_perm (l : List PriceRecord) :
    (sortByPriceDesc l).Perm l := by
  induction l with
  | nil => exact List.Perm.refl _
  | cons x l ih =>
      unfold sortByPriceDesc
      exact (insertDesc_perm x (sortByPriceDesc l)).trans (ih.cons x)

theorem sortByPriceDesc_sorted (l : List PriceRecord) :
    (sortByPriceDesc l).Pairwise (fun a b => b.price ≤ a.price) := by
  induction l with
  | nil => simp [sortByPriceDesc]
  | cons x l ih =>
      unfold sortByPriceDesc
      exact insertDesc_sorted x (sortByPriceDesc l) ih

theorem insertDesc_filter_price (p : Int) (x : PriceRecord)
    (l : List PriceRecord) :
    (insertDesc x l).filter (fun r => r.price == p)
      = (x :: l).filter (fun r => r.price == p) := by
  induction l with
  | nil => rfl
  | cons y l ih =>
      unfold insertDesc
      by_cases hxy : y.price ≤ x.price
      · simp only [hxy, if_true]
      · simp only [hxy, if_false]
        by_cases hy : y.price = p
        · have hx : ¬ (x.price = p) := by
            intro hx
            exact hxy (by omega)
          simp only [List.filter_cons, hy, hx, beq_iff_eq, if_true, if_false,
            ih, decide_eq_true_eq]
        · simp only [List.filter_cons, beq_iff_eq, decide_eq_true_eq, hy,
            if_false, ih]

/-- Stability: the subsequence of any fixed price is preserved by the sort. -/
theorem sortByPriceDesc_stable (p : Int) (l : List PriceRecord) :
    (sortByPriceDesc l).filter (fun r => r.price == p)
      = l.filter (fun r => r.price == p) := by
  induction l with
  | nil => rfl
  | cons x l ih =>
      unfold sortByPriceDesc
      rw [insertDesc_filter_price p x (sortByPriceDesc l)]
      simp only [List.filter_cons, ih]

/-- C3: the aggregated sequence is non-increasing in `price`; it contains
exactly the non-error entries of the flattened input (a permutation of the
filtered, flattened groups); and the sort is stable — entries of any equal
price appear in exactly their input order, so for a fixed input order the
output is deterministic and never depends on task completion order. -/
theorem c3_aggregate_sorted (groups : List (List FetchResult)) :
    (aggregate groups).Pairwise (fun a b => b.price ≤ a.price) ∧
    (aggregate groups).Perm ((groups.map validRecords).flatten) ∧
    ∀ p : Int, (aggregate groups).filter (fun r => r.price == p)
      = ((groups.map validRecords).flatten).filter (fun r => r.price == p) := by
  unfold aggregate
  rw [collectPrices_eq]
  exact ⟨sortByPriceDesc_sorted _, sortByPriceDesc_perm _,
    fun p => sortByPriceDesc_stable p _⟩

/-! ## Run-level state updates (C8) -/

/-- The component state the engine publishes through React (App.js lines
8-16): the snapshot (`priceData`, `lastUpdated`), the error banner and the
busy flag. -/
structure AppState where
  priceData : List PriceRecord
  lastUpdated : Option String
  error : Option String
  loading : Bool
deriving DecidableEq, Repr

/-- The net state update of one `fetchAllPrices` run (App.js lines 175-229):
`setLoading(true); setError(null)`, the try block — whose outcome, the
collected per-group results or a run-level thrown message, is the `outcome`
parameter — then on success `setPriceData(sorted)`/`setLastUpdated(now)`, on
failure `setError(msg)`, and `setLoading(false)` in the `finally`. -/
def fetchAllPricesUpdate (st : AppState)
    (outcome : Except String (List (List FetchResult))) (nowStr : String) :
    AppState :=
  match outcome with
  | Except.ok groups =>
      { st with
        priceData := aggregate groups
        lastUpdated := some nowStr
        error := none
        loading := false }
  | Except.error msg =>
      { st with
        error := some ("データ取得中にエラーが発生しました: " ++ msg)
        loading := false }

/-- The state update of a failed catalog load (App.js lines 235-254): the
`.catch` sets only the error message. -/
def loadFailureUpdate (st : AppState) : AppState :=
  { st with error := some "アイテムデータの読み込みに失敗しました" }

/-- C8: a run that fails — at catalog load time or with a run-level error
during fetching — leaves the previously published snapshot untouched:
`priceData` and `lastUpdated` keep their values and only the error message
(and, for the run-level case, the loading flag) change. -/
theorem c8_failure_preserves_snapshot (st : AppState) (msg : String)
    (nowStr : String) :
    (fetchAllPricesUpdate st (Except.error msg) nowStr).priceData
        = st.priceData ∧
    (fetchAllPricesUpdate st (Except.error msg) nowStr).lastUpdated
        = st.lastUpdated ∧
    fetchAllPricesUpdate st (Except.error msg) nowStr
      = { st with
          error := some ("データ取得中にエラーが発生しました: " ++ msg)
          loading := false } ∧
    (loadFailureUpdate st).priceData = st.priceData ∧
    (loadFailureUpdate st).lastUpdated = st.lastUpdated ∧
    (loadFailureUpdate st).loading = st.loading ∧
    loadFailureUpdate st
      = { st with error := some "アイテムデータの読み込みに失敗しました" } :=
  ⟨rfl, rfl, rfl, rfl, rfl, rfl, rfl⟩

/-! ## The inter-batch pause (C9) -/

/-- An observable event of the `fetchAllPrices` driving loop: processing
outer batch `i`, or an `await sleep(ms)`. -/
inductive RunEvent where
  | processBatch (i : Nat)
  | sleep (ms : Nat)
deriving DecidableEq, Repr

/-- Whether an event is a sleep. -/
def RunEvent.isSleep : RunEvent → Bool
  | RunEvent.sleep _ => true
  | RunEvent.processBatch _ => false

/-- The event trace of the `for (let i = 0; i < totalBatches; i++)` loop
(App.js lines 192-214): each iteration processes batch `i` and then, only
when `i < totalBatches - 1`, sleeps 200 ms. -/
def runTrace (totalBatches : Nat) : List RunEvent :=
  (List.range totalBatches).flatMap (fun i =>
    RunEvent.processBatch i ::
      (if i < totalBatches - 1 then [RunEvent.sleep 200] else []))

/-- The trace of `k + 1` batches in closed form: every batch but the last is
followed by exactly one 200 ms sleep, and the final batch by nothing. -/
theorem runTrace_succ (k : Nat) :
    runTrace (k + 1)
      = ((List.range k).flatMap
          (fun i => [RunEvent.processBatch i, RunEvent.sleep 200]))
        ++ [RunEvent.processBatch k] := by
  unfold runTrace
  rw [List.range_succ, List.flatMap_append]
  congr 1
  · apply List.flatMap_congr
    intro i hi
    have hik : i < k := List.mem_range.mp hi
    have hik2 : i < k + 1 - 1 := by omega
    simp [hik, hik2]
  · simp

theorem sleep_count_aux (k : Nat) :
    (((List.range k).flatMap
        (fun i => [RunEvent.processBatch i, RunEvent.sleep 200]))).countP
      RunEvent.isSleep = k := by
  induction k with
  | zero => rfl
  | succ k ih =>
      rw [List.range_succ, List.flatMap_append, List.countP_append, ih]
      rfl

/-- C9: a run over `k` sequentially processed batches sleeps exactly
`max(k - 1, 0)` times, each sleep is exactly 200 ms and falls between two
successive batches, and no sleep follows the final batch: the trace of a run
over `k + 1` batches is batch 0, sleep 200, batch 1, sleep 200, …, batch k,
its last event is the final batch, and the trace of an empty run is empty. -/
theorem c9_sleep_between_batches (k : Nat) :
    (runTrace k).countP RunEvent.isSleep = k - 1 ∧
    runTrace (k + 1)
      = ((List.range k).flatMap
          (fun i => [RunEvent.processBatch i, RunEvent.sleep 200]))
        ++ [RunEvent.processBatch k] ∧
    (runTrace (k + 1)).getLast? = some (RunEvent.processBatch k) ∧
    runTrace 0 = [] := by
  refine ⟨?_, runTrace_succ k, ?_, rfl⟩
  · cases k with
    | zero => rfl
    | succ k =>
        rw [runTrace_succ k, List.countP_append, sleep_count_aux k]
        rfl
  · rw [runTrace_succ k]
    exact List.getLast?_concat _

end MakeboApp
